import Mathlib

/-!
Verification of the fetch-utils module (src/index.js): a shallow embedding of
its pure computations — query-string formatting via URLSearchParams, the
response interceptor, request-option construction (body, headers, URL, abort
timer), the Content-Disposition filename computation — together with theorems
settling the specification claims.
-/

set_option autoImplicit false

namespace FetchUtils

/-- A JavaScript value as it can appear in the plain-object parameters
(query, data) handed to the module: strings, integer numbers, booleans,
null and undefined. -/
inductive JSValue where
  | str (s : String)
  | num (n : Int)
  | bool (b : Bool)
  | null
  | undefined
  deriving DecidableEq, Repr

/-- The ECMAScript ToString conversion applied to a `JSValue`, as WebIDL
performs it when converting a record value to USVString (URLSearchParams
record init) or when an object key or value is coerced to a string. -/
def jsToString : JSValue → String
  | .str s => s
  | .num n => toString n
  | .bool b => cond b "true" "false"
  | .null => "null"
  | .undefined => "undefined"

/-- UTF-8 encoding of a single character, as a list of byte values. -/
def utf8Bytes (c : Char) : List Nat :=
  let n := c.toNat
  if n < 0x80 then [n]
  else if n < 0x800 then [0xC0 + n / 0x40, 0x80 + n % 0x40]
  else if n < 0x10000 then
    [0xE0 + n / 0x1000, 0x80 + (n / 0x40) % 0x40, 0x80 + n % 0x40]
  else
    [0xF0 + n / 0x40000, 0x80 + (n / 0x1000) % 0x40,
     0x80 + (n / 0x40) % 0x40, 0x80 + n % 0x40]

/-- Upper-case hexadecimal digit for a value below 16. -/
def hexDigitUpper (n : Nat) : Char :=
  if n < 10 then Char.ofNat (48 + n) else Char.ofNat (65 + (n - 10))

/-- A byte kept verbatim by the application/x-www-form-urlencoded percent-encode
set: ASCII alphanumerics and 0x2A (asterisk), 0x2D (hyphen), 0x2E (full stop),
0x5F (low line). -/
def isUrlencodedSafe (b : Nat) : Bool :=
  (48 ≤ b && b ≤ 57) || (65 ≤ b && b ≤ 90) || (97 ≤ b && b ≤ 122) ||
  b == 0x2A || b == 0x2D || b == 0x2E || b == 0x5F

/-- Serialization of one byte by the application/x-www-form-urlencoded
serializer: space becomes a plus sign, safe bytes stay as themselves, every
other byte is percent-encoded with upper-case hex digits. -/
def urlencodeByte (b : Nat) : List Char :=
  if b == 0x20 then [Char.ofNat 0x2B]
  else if isUrlencodedSafe b then [Char.ofNat b]
  else [Char.ofNat 0x25, hexDigitUpper (b / 16), hexDigitUpper (b % 16)]

/-- application/x-www-form-urlencoded serialization of a string: UTF-8 encode,
then encode each byte. This is what URLSearchParams.toString applies to every
name and value. -/
def urlencodeString (s : String) : String :=
  String.mk (s.data.flatMap (fun c => (utf8Bytes c).flatMap urlencodeByte))

/-- src/index.js lines 12-14: paramsFormat builds new URLSearchParams(json)
and serializes it. The record init keeps every own enumerable property,
converting its value with ToString (so null becomes the string "null" and
undefined the string "undefined"); toString then joins the
urlencoded name=value pairs with ampersands. The mapping is embedded as the
ordered list of the object's own enumerable (key, value) pairs. -/
def paramsFormat (json : List (String × JSValue)) : String :=
  String.intercalate "&"
    (json.map (fun p => urlencodeString p.1 ++ "=" ++ urlencodeString (jsToString p.2)))

/-- A platform Response as far as the interceptor inspects it: the numeric
status, the ok flag, and the parsed JSON body that res.json() resolves to. -/
structure Response (β : Type) where
  status : Nat
  ok : Bool
  body : β
  deriving Repr

/-- src/index.js lines 17-23: the fixed table of localized error messages. -/
def errCodes (s : Nat) : Option String :=
  if s = 400 then some "请求参数错误"
  else if s = 403 then some "无权访问"
  else if s = 404 then some "资源不存在"
  else if s = 413 then some "请求文件过大"
  else if s = 500 then some "服务器内部错误"
  else none

/-- src/index.js lines 16-33: the response interceptor. Returns the console
log lines it emits together with either the value it returns (some body when
status is truthy and ok, none for the implicit undefined) or the string it
throws. Status truthiness for a number is being nonzero. -/
def interceptors {β : Type} (res : Response β) :
    List String × Except String (Option β) :=
  if res.status ≠ 0 ∧ res.ok = true then
    ([], Except.ok (some res.body))
  else
    ((if res.status = 403 then ["无权访问"] else []),
     match errCodes res.status with
     | some msg => Except.error msg
     | none => Except.ok none)

/-- src/index.js line 71: const timeout = params.timeout || 10. A numeric
params.timeout of 0 is falsy, so the default 10 also applies to it; the
argument is none when params.timeout is absent or undefined. -/
def effectiveTimeout (paramsTimeout : Option Int) : Int :=
  match paramsTimeout with
  | some t => if t = 0 then 10 else t
  | none => 10

/-- src/index.js lines 72-74: the abort timer is scheduled exactly when the
effective timeout is positive. -/
def timerScheduled (paramsTimeout : Option Int) : Bool :=
  0 < effectiveTimeout paramsTimeout

/-- JSON.stringify string escaping for one character: quote and backslash are
escaped, the named control escapes are used for backspace, tab, newline, form
feed and carriage return, other control characters become a unicode escape,
and everything else stands for itself. -/
def jsonEscapeChar (c : Char) : List Char :=
  if c = Char.ofNat 0x22 then [Char.ofNat 0x5C, Char.ofNat 0x22]
  else if c = Char.ofNat 0x5C then [Char.ofNat 0x5C, Char.ofNat 0x5C]
  else if c = Char.ofNat 0x08 then [Char.ofNat 0x5C, Char.ofNat 0x62]
  else if c = Char.ofNat 0x09 then [Char.ofNat 0x5C, Char.ofNat 0x74]
  else if c = Char.ofNat 0x0A then [Char.ofNat 0x5C, Char.ofNat 0x6E]
  else if c = Char.ofNat 0x0C then [Char.ofNat 0x5C, Char.ofNat 0x66]
  else if c = Char.ofNat 0x0D then [Char.ofNat 0x5C, Char.ofNat 0x72]
  else if c.toNat < 0x20 then
    [Char.ofNat 0x5C, Char.ofNat 0x75, Char.ofNat 0x30, Char.ofNat 0x30,
     hexDigitUpper (c.toNat / 16), hexDigitUpper (c.toNat % 16)]
  else [c]

/-- JSON.stringify of a string value: escaped and wrapped in double quotes. -/
def jsonQuote (s : String) : String :=
  String.mk (Char.ofNat 0x22 :: s.data.flatMap jsonEscapeChar ++ [Char.ofNat 0x22])

/-- JSON.stringify of a single JS value; none for undefined, whose properties
JSON.stringify omits from the enclosing object. -/
def jsonStringifyValue : JSValue → Option String
  | .str s => some (jsonQuote s)
  | .num n => some (toString n)
  | .bool b => some (cond b "true" "false")
  | .null => some "null"
  | .undefined => none

/-- JSON.stringify of a plain object given as its ordered own-property list. -/
def jsonStringify (obj : List (String × JSValue)) : String :=
  "\x7b" ++
    String.intercalate ","
      (obj.filterMap (fun p =>
        (jsonStringifyValue p.2).map (fun v => jsonQuote p.1 ++ ":" ++ v))) ++
  "\x7d"

/-- src/index.js lines 62-64: options.body is set to JSON.stringify of
params.data exactly when the method string differs from the lowercase "get"
and params.data is truthy (none embeds an absent or otherwise falsy
params.data). -/
def fetchRequestBody (method : String) (data : Option (List (String × JSValue))) :
    Option String :=
  match data with
  | some d => if method ≠ "get" then some (jsonStringify d) else none
  | none => none

/-- src/index.js lines 58-61: fetchRequest appends the formatted query only
when params.query is truthy, and then appends the question mark only when the
formatted string is nonempty (queryString && ...). -/
def fetchRequestUrl (url : String) (query : Option (List (String × JSValue))) :
    String :=
  match query with
  | none => url
  | some q =>
    let queryString := paramsFormat q
    url ++ (if queryString = "" then "" else "?" ++ queryString)

/-- src/index.js lines 108-110 (and likewise lines 146-148): fetchFormData
appends the question mark and the formatted query unconditionally whenever
params.query is truthy. -/
def fetchFormDataUrl (url : String) (query : Option (List (String × JSValue))) :
    String :=
  match query with
  | none => url
  | some q => url ++ "?" ++ paramsFormat q

/-- A character permitted in an HTTP header name: the RFC 7230 token
characters, i.e. ASCII alphanumerics and these symbols by code point:
0x21 ! , 0x23 #, 0x24 dollar, 0x25 %, 0x26 &, 0x27 apostrophe, 0x2A *,
0x2B +, 0x2D -, 0x2E ., 0x5E ^, 0x5F _, 0x60 backtick, 0x7C |, 0x7E ~. -/
def isHeaderTokenChar (c : Char) : Bool :=
  let n := c.toNat
  (48 ≤ n && n ≤ 57) || (65 ≤ n && n ≤ 90) || (97 ≤ n && n ≤ 122) ||
  n == 0x21 || n == 0x23 || n == 0x24 || n == 0x25 || n == 0x26 ||
  n == 0x27 || n == 0x2A || n == 0x2B || n == 0x2D || n == 0x2E ||
  n == 0x5E || n == 0x5F || n == 0x60 || n == 0x7C || n == 0x7E

/-- Validity of an HTTP header name as Headers.append checks it: a nonempty
run of token characters. -/
def isValidHeaderName (s : String) : Bool :=
  s ≠ "" && s.data.all isHeaderTokenChar

/-- Headers.append: rejects an invalid header name with a TypeError, otherwise
appends the (name, value) pair to the header list. -/
def headerAppend (hs : List (String × String)) (name value : String) :
    Except String (List (String × String)) :=
  if isValidHeaderName name then Except.ok (hs ++ [(name, value)])
  else Except.error "TypeError: invalid header name"

/-- src/index.js lines 4-6: the headers helper builds a Headers collection
from an init mapping by appending each pair in order. -/
def headers (init : List (String × String)) :
    Except String (List (String × String)) :=
  init.foldl (fun acc p => acc.bind (fun hs => headerAppend hs p.1 p.2))
    (Except.ok [])

/-- The ECMAScript ToString of an array of strings (Array.prototype.toString):
the elements joined with commas. Headers.append applies it when it is handed
the keys array itself as the name argument. -/
def joinKeys (keys : List String) : String :=
  String.intercalate "," keys

/-- src/index.js lines 65-70 (and identically lines 111-116 and 149-154): the
header-merge loop. keys is Object.keys(params.headers); the loop body calls
options.headers.append(keys, params.headers[item]) — with the whole keys
array, coerced to the comma-joined string, as the header name on every
iteration — not with the current key item. -/
def mergeParamsHeaders (hs : List (String × String))
    (paramsHeaders : List (String × String)) :
    Except String (List (String × String)) :=
  let keys := paramsHeaders.map Prod.fst
  paramsHeaders.foldl
    (fun acc p => acc.bind (fun l => headerAppend l (joinKeys keys) p.2))
    (Except.ok hs)

/-- The header merge the specification describes: each pair of the caller
mapping appended under that pair's own key. Stated from the spec only, to be
compared with mergeParamsHeaders taken from the source. -/
def mergeParamsHeadersSpec (hs : List (String × String))
    (paramsHeaders : List (String × String)) :
    Except String (List (String × String)) :=
  paramsHeaders.foldl
    (fun acc p => acc.bind (fun l => headerAppend l p.1 p.2))
    (Except.ok hs)

/-- The settled state of a promise: fulfilled with a value or rejected with a
reason. -/
inductive PromiseResult (α : Type) where
  | resolved (v : α)
  | rejected (reason : String)
  deriving DecidableEq, Repr

/-- The rejection the platform fetch promise can deliver: an AbortError (its
message contains "The user aborted a request") or any other failure such as a
network error. -/
inductive FetchError where
  | abortError
  | networkError (msg : String)
  deriving DecidableEq, Repr

/-- The outcome of the underlying fetch call: a response (with the body that
res.json() later parses) or a rejection. -/
inductive FetchOutcome (β : Type) where
  | success (res : Response β)
  | failure (e : FetchError)
  deriving Repr

/-- src/index.js lines 76-87: the promise pipeline of fetchRequest after the
request is issued. A response is piped through interceptors; any rejection
(fetch failure, or the string interceptors throws) reaches the catch handler,
which only logs — the timeout line for an abort, the generic line otherwise —
and returns undefined, so the chain settles resolved. Returns the console
log lines (interceptor logs first) and the settled state; the resolved value
is the parsed body, or none for undefined. -/
def fetchRequestSettle {β : Type} (o : FetchOutcome β) (reqUrl : String) :
    List String × PromiseResult (Option β) :=
  match o with
  | .success res =>
    match interceptors res with
    | (logs, Except.ok v) => (logs, PromiseResult.resolved v)
    | (logs, Except.error msg) =>
      (logs ++ ["请求错误: " ++ msg], PromiseResult.resolved none)
  | .failure FetchError.abortError =>
    (["请求超时: " ++ reqUrl], PromiseResult.resolved none)
  | .failure (FetchError.networkError msg) =>
    (["请求错误: " ++ msg], PromiseResult.resolved none)

/-- src/index.js lines 118-125: the promise pipeline of fetchFormData. Same
shape as fetchRequest but its catch handler always logs the generic line. -/
def fetchFormDataSettle {β : Type} (o : FetchOutcome β) :
    List String × PromiseResult (Option β) :=
  match o with
  | .success res =>
    match interceptors res with
    | (logs, Except.ok v) => (logs, PromiseResult.resolved v)
    | (logs, Except.error msg) =>
      (logs ++ ["请求错误: " ++ msg], PromiseResult.resolved none)
  | .failure FetchError.abortError =>
    (["请求错误: AbortError"], PromiseResult.resolved none)
  | .failure (FetchError.networkError msg) =>
    (["请求错误: " ++ msg], PromiseResult.resolved none)

/-- Numeric value of one hexadecimal digit character. -/
def hexVal (c : Char) : Option Nat :=
  let n := c.toNat
  if 48 ≤ n ∧ n ≤ 57 then some (n - 48)
  else if 65 ≤ n ∧ n ≤ 70 then some (n - 55)
  else if 97 ≤ n ∧ n ≤ 102 then some (n - 87)
  else none

/-- The URI reserved set preserved by decodeURI, by code point:
0x3B ; 0x2F / 0x3F ? 0x3A : 0x40 @ 0x26 & 0x3D = 0x2B + 0x24 dollar
0x2C , 0x23 #. -/
def uriReservedChar (c : Char) : Bool :=
  let n := c.toNat
  n == 0x3B || n == 0x2F || n == 0x3F || n == 0x3A || n == 0x40 ||
  n == 0x26 || n == 0x3D || n == 0x2B || n == 0x24 || n == 0x2C || n == 0x23

/-- Reads k continuation-byte escape sequences (each a percent sign and two
hex digits denoting a byte in 0x80..0xBF) from the character stream. -/
def readContinuations : Nat → List Char → Option (List Nat × List Char)
  | 0, cs => some ([], cs)
  | k + 1, cs =>
    match cs with
    | p :: c1 :: c2 :: rest =>
      if p.toNat == 0x25 then
        match hexVal c1, hexVal c2 with
        | some h1, some h2 =>
          let b := 16 * h1 + h2
          if 0x80 ≤ b ∧ b < 0xC0 then
            match readContinuations k rest with
            | some (bs, rest2) => some (b :: bs, rest2)
            | none => none
          else none
        | _, _ => none
      else none
    | _ => none

/-- Decodes a complete UTF-8 byte sequence (leading byte plus continuations)
to its code point, rejecting overlong encodings, surrogate code points and
values past 0x10FFFF, as the ECMAScript Decode algorithm does. -/
def utf8Decode : List Nat → Option Nat
  | [b1, b2] =>
    let cp := (b1 - 0xC0) * 0x40 + (b2 - 0x80)
    if 0x80 ≤ cp then some cp else none
  | [b1, b2, b3] =>
    let cp := (b1 - 0xE0) * 0x1000 + (b2 - 0x80) * 0x40 + (b3 - 0x80)
    if 0x800 ≤ cp ∧ ¬(0xD800 ≤ cp ∧ cp ≤ 0xDFFF) then some cp else none
  | [b1, b2, b3, b4] =>
    let cp := (b1 - 0xF0) * 0x40000 + (b2 - 0x80) * 0x1000 +
              (b3 - 0x80) * 0x40 + (b4 - 0x80)
    if 0x10000 ≤ cp ∧ cp ≤ 0x10FFFF then some cp else none
  | _ => none

/-- The ECMAScript Decode loop behind decodeURI, with fuel bounding the
number of steps (each step consumes at least one character, so fuel equal to
the input length suffices). An escape sequence decoding to a character of the
reserved set is kept verbatim; a malformed sequence is a URIError (none). -/
def decodeURIGo : Nat → List Char → Option (List Char)
  | _, [] => some []
  | 0, _ :: _ => none
  | fuel + 1, c :: rest =>
    if c.toNat == 0x25 then
      match rest with
      | c1 :: c2 :: rest2 =>
        match hexVal c1, hexVal c2 with
        | some h1, some h2 =>
          let b := 16 * h1 + h2
          if b < 0x80 then
            let ch := Char.ofNat b
            let out := if uriReservedChar ch then [c, c1, c2] else [ch]
            Option.map (fun t => out ++ t) (decodeURIGo fuel rest2)
          else
            let k :=
              if 0xC0 ≤ b ∧ b < 0xE0 then some 2
              else if 0xE0 ≤ b ∧ b < 0xF0 then some 3
              else if 0xF0 ≤ b ∧ b < 0xF8 then some 4
              else none
            match k with
            | none => none
            | some k =>
              match readContinuations (k - 1) rest2 with
              | none => none
              | some (bs, rest3) =>
                match utf8Decode (b :: bs) with
                | none => none
                | some cp =>
                  Option.map (fun t => Char.ofNat cp :: t)
                    (decodeURIGo fuel rest3)
        | _, _ => none
      | _ => none
    else Option.map (fun t => c :: t) (decodeURIGo fuel rest)

/-- The global decodeURI function: none models a thrown URIError. -/
def decodeURI (s : String) : Option String :=
  Option.map String.mk (decodeURIGo s.data.length s.data)

/-- The filename value fetchDownloadBlob computes: either a string or the
numeric timestamp new Date().getTime(). -/
inductive DownloadName where
  | str (s : String)
  | timestamp (ms : Nat)
  deriving DecidableEq, Repr

/-- src/index.js lines 159-161: the filename of the saved file,
decodeURI(res.headers.get("Content-Disposition")) || new Date().getTime().
headers.get yields null when the header is absent; decodeURI coerces its
argument with ToString first, so null becomes the four-character string
"null". The logical-or takes the timestamp only when the decoded string is
falsy, i.e. empty. none models a thrown URIError. -/
def fileNameOf (contentDisposition : Option String) (nowMs : Nat) :
    Option DownloadName :=
  let arg :=
    match contentDisposition with
    | some s => s
    | none => "null"
  match decodeURI arg with
  | none => none
  | some d =>
    some (if d = "" then DownloadName.timestamp nowMs else DownloadName.str d)

/-- C1 counterexample: with params.timeout = 0 the abort timer IS scheduled,
because 0 is falsy and params.timeout || 10 falls back to the default 10,
which is positive — contradicting the claim that timeout = 0 schedules no
timer. -/
theorem timer_schedule_counterexample : timerScheduled (some 0) = true := by
  decide

/-- C1 amended: the abort timer is scheduled exactly when the effective
timeout params.timeout || 10 is positive; an absent params.timeout and a
params.timeout of 0 both yield the default 10 (so the timer fires after 10
seconds in both cases), a positive params.timeout is used as given, and for a
concrete params.timeout t the timer is scheduled exactly when t is
nonnegative — only a negative value prevents scheduling. -/
theorem timer_schedule_amended :
    timerScheduled none = true ∧ effectiveTimeout none = 10 ∧
    effectiveTimeout (some 0) = 10 ∧ timerScheduled (some 0) = true ∧
    (∀ t : Int, timerScheduled (some t) = decide (0 ≤ t)) ∧
    (∀ t : Int, 0 < t → effectiveTimeout (some t) = t) := by
  refine ⟨rfl, rfl, rfl, by decide, ?_, ?_⟩
  · intro t
    by_cases h : t = 0
    · subst h; decide
    · simp only [timerScheduled, effectiveTimeout, if_neg h]
      rw [decide_eq_decide]
      omega
  · intro t ht
    simp only [effectiveTimeout, if_neg (by omega : ¬t = 0)]

/-- C1 witness for the amended statement: params.timeout = 5 is positive and
the effective timeout is 5. -/
theorem timer_schedule_amended_witness : effectiveTimeout (some 5) = 5 :=
  timer_schedule_amended.2.2.2.2.2 5 (by decide)

/-- C2: the header-merge loop is buggy at the failing input
params.headers = (a -> 1, b -> 2). Object.keys gives the array [a, b];
append is called with that array as the name, which coerces to the string
"a,b" — not a valid header name, so Headers.append throws a TypeError and
neither pair lands under its own key. The loop the spec describes
(mergeParamsHeadersSpec) would instead extend the default fetchRequest
headers with both pairs. -/
theorem headers_merge_bug :
    joinKeys ["a", "b"] = "a,b" ∧
    isValidHeaderName "a,b" = false ∧
    (headers [("content-Type", "application/json")]).bind
        (fun hs => mergeParamsHeaders hs [("a", "1"), ("b", "2")])
      = Except.error "TypeError: invalid header name" ∧
    (headers [("content-Type", "application/json")]).bind
        (fun hs => mergeParamsHeadersSpec hs [("a", "1"), ("b", "2")])
      = Except.ok
          [("content-Type", "application/json"), ("a", "1"), ("b", "2")] := by
  refine ⟨rfl, by decide, rfl, rfl⟩

/-- C3: paramsFormat does not drop null and undefined entries. At the failing
input (a -> null, b -> undefined, c -> "x") the URLSearchParams record init
stringifies the values, so the output is "a=null&b=undefined&c=x" rather than
the "c=x" the drop behavior described by the claim (and by the source's own
doc comment) would produce. -/
theorem paramsFormat_keeps_null_undefined :
    paramsFormat
        [("a", JSValue.null), ("b", JSValue.undefined), ("c", JSValue.str "x")]
      = "a=null&b=undefined&c=x" ∧
    paramsFormat
        [("a", JSValue.null), ("b", JSValue.undefined), ("c", JSValue.str "x")]
      ≠ "c=x" := by
  refine ⟨rfl, by decide⟩

/-- C4: when the Content-Disposition header is absent, headers.get yields
null, decodeURI coerces it to the string "null", which is truthy, so the
saved filename is the literal string "null" — the timestamp fallback is dead
code and the filename is never the current timestamp. -/
theorem fileName_absent_header_bug :
    fileNameOf none 1760140800000 = some (DownloadName.str "null") ∧
    fileNameOf none 1760140800000
      ≠ some (DownloadName.timestamp 1760140800000) := by
  refine ⟨rfl, by decide⟩

/-- C5: for every outcome of the underlying fetch — success, network error or
abort, and whatever interceptors does with a response, including throwing a
mapped status message — the promise pipelines of fetchRequest and
fetchFormData settle resolved, never rejected; every error is swallowed by
the catch handler after logging and the resolved value is then undefined
(none), while a successful response resolves to what interceptors returns. -/
theorem fetch_always_resolves :
    (∀ (β : Type) (o : FetchOutcome β) (reqUrl : String),
       ∃ v, (fetchRequestSettle o reqUrl).2 = PromiseResult.resolved v) ∧
    (∀ (β : Type) (o : FetchOutcome β),
       ∃ v, (fetchFormDataSettle o).2 = PromiseResult.resolved v) ∧
    (∀ (β : Type) (e : FetchError) (reqUrl : String),
       (fetchRequestSettle (FetchOutcome.failure e) reqUrl).2
         = PromiseResult.resolved (none : Option β)) ∧
    (∀ (β : Type) (e : FetchError),
       (fetchFormDataSettle (FetchOutcome.failure e)).2
         = PromiseResult.resolved (none : Option β)) ∧
    (∀ (β : Type) (res : Response β) (reqUrl : String),
       (fetchRequestSettle (FetchOutcome.success res) reqUrl).2
         = PromiseResult.resolved (Option.join (interceptors res).2.toOption)) := by
  refine ⟨?_, ?_, ?_, ?_, ?_⟩
  · intro β o reqUrl
    cases o with
    | success res =>
      rcases h : interceptors res with ⟨logs, exc⟩
      cases exc with
      | ok v => exact ⟨v, by simp [fetchRequestSettle, h]⟩
      | error m => exact ⟨none, by simp [fetchRequestSettle, h]⟩
    | failure e => cases e <;> exact ⟨none, rfl⟩
  · intro β o
    cases o with
    | success res =>
      rcases h : interceptors res with ⟨logs, exc⟩
      cases exc with
      | ok v => exact ⟨v, by simp [fetchFormDataSettle, h]⟩
      | error m => exact ⟨none, by simp [fetchFormDataSettle, h]⟩
    | failure e => cases e <;> exact ⟨none, rfl⟩
  · intro β e reqUrl; cases e <;> rfl
  · intro β e; cases e <;> rfl
  · intro β res reqUrl
    rcases h : interceptors res with ⟨logs, exc⟩
    cases exc <;> simp [fetchRequestSettle, h, Except.toOption]

/-- C6: on every response that is not (truthy status and ok), interceptors
throws exactly when the status is one of 400, 403, 404, 413, 500, with the
corresponding localized message — in particular 404 throws the
resource-missing message, and 403 first logs the no-access message and then
throws it — while any other status returns undefined without throwing. -/
theorem interceptors_non_ok_spec {β : Type} (res : Response β)
    (h : ¬(res.status ≠ 0 ∧ res.ok = true)) :
    ((∃ m, (interceptors res).2 = Except.error m) ↔
       res.status ∈ [400, 403, 404, 413, 500]) ∧
    (res.status = 404 → (interceptors res).2 = Except.error "资源不存在") ∧
    (res.status = 403 →
       interceptors res = (["无权访问"], Except.error "无权访问")) ∧
    (res.status = 400 → (interceptors res).2 = Except.error "请求参数错误") ∧
    (res.status = 413 → (interceptors res).2 = Except.error "请求文件过大") ∧
    (res.status = 500 → (interceptors res).2 = Except.error "服务器内部错误") ∧
    (res.status ∉ [400, 403, 404, 413, 500] →
       (interceptors res).2 = Except.ok none) := by
  have hi : interceptors res =
      ((if res.status = 403 then ["无权访问"] else []),
       match errCodes res.status with
       | some msg => Except.error msg
       | none => Except.ok none) := by
    rw [interceptors, if_neg h]
  rw [hi]
  by_cases h400 : res.status = 400
  · simp [errCodes, h400]
  by_cases h403 : res.status = 403
  · simp [errCodes, h403]
  by_cases h404 : res.status = 404
  · simp [errCodes, h404]
  by_cases h413 : res.status = 413
  · simp [errCodes, h413]
  by_cases h500 : res.status = 500
  · simp [errCodes, h500]
  · simp [errCodes, h400, h403, h404, h413, h500]

/-- C6 witness: a 404 response with ok = false throws the resource-missing
message. -/
theorem interceptors_non_ok_spec_witness :
    (interceptors (⟨404, false, "body"⟩ : Response String)).2
      = Except.error "资源不存在" :=
  (interceptors_non_ok_spec (⟨404, false, "body"⟩ : Response String)
    (by decide)).2.1 rfl

/-- C7: on every response with a truthy (nonzero) status and ok = true,
interceptors returns the parsed JSON body unchanged, logging nothing and
throwing nothing. -/
theorem interceptors_ok_spec {β : Type} (res : Response β)
    (h1 : res.status ≠ 0) (h2 : res.ok = true) :
    interceptors res = ([], Except.ok (some res.body)) := by
  rw [interceptors, if_pos ⟨h1, h2⟩]

/-- C7 witness: a 200 ok response returns its body. -/
theorem interceptors_ok_spec_witness :
    interceptors (⟨200, true, "body"⟩ : Response String)
      = ([], Except.ok (some "body")) :=
  interceptors_ok_spec (⟨200, true, "body"⟩ : Response String) (by decide) rfl

/-- C8 counterexample: with url "/a" and the empty query mapping (formatted
query string empty), fetchRequest leaves the URL at "/a" while fetchFormData
produces "/a?" — the two functions do not produce identical final URLs for
identical inputs. -/
theorem url_build_counterexample :
    fetchRequestUrl "/a" (some []) ≠ fetchFormDataUrl "/a" (some []) := by
  decide

/-- C8 amended: fetchFormData appends the question mark and the formatted
query unconditionally whenever params.query is truthy, so the two functions
produce identical final URLs exactly when the formatted query string is
nonempty (or params.query is absent, when both leave the URL unchanged);
when the formatted query string is empty, fetchRequest leaves the URL
unchanged while fetchFormData appends a bare question mark. -/
theorem url_build_amended (url : String) (q : List (String × JSValue)) :
    (fetchRequestUrl url (some q) = fetchFormDataUrl url (some q) ↔
       paramsFormat q ≠ "") ∧
    (paramsFormat q = "" →
       fetchRequestUrl url (some q) = url ∧
       fetchFormDataUrl url (some q) = url ++ "?") ∧
    fetchRequestUrl url none = fetchFormDataUrl url none := by
  have hlen : url ≠ url ++ "?" := by
    intro he
    have hl := congrArg String.length he
    rw [String.length_append] at hl
    have h1 : ("?" : String).length = 1 := rfl
    omega
  by_cases hq : paramsFormat q = ""
  · have hr : fetchRequestUrl url (some q) = url := by
      simp [fetchRequestUrl, hq]
    have hf : fetchFormDataUrl url (some q) = url ++ "?" := by
      simp [fetchFormDataUrl, hq]
    refine ⟨?_, fun _ => ⟨hr, hf⟩, rfl⟩
    rw [hr, hf]
    simp [hq, hlen]
  · refine ⟨?_, fun hc => absurd hc hq, rfl⟩
    simp [fetchRequestUrl, fetchFormDataUrl, hq, String.append_assoc]

/-- C8 witness for the amended statement: at url "/a" with the empty query
mapping the formatted query string is empty, fetchRequest keeps "/a" and
fetchFormData yields "/a" with a bare question mark appended. -/
theorem url_build_amended_witness :
    fetchRequestUrl "/a" (some []) = "/a" ∧
    fetchFormDataUrl "/a" (some []) = "/a" ++ "?" :=
  (url_build_amended "/a" []).2.1 rfl

/-- C9: a fetchRequest with the method string "get" never sets a request
body, whatever params.data holds. -/
theorem get_never_sets_body (data : Option (List (String × JSValue))) :
    fetchRequestBody "get" data = none := by
  cases data <;> simp [fetchRequestBody]

/-- C10: the guard method !== "get" is case-sensitive: for every method
string other than the exact lowercase "get" and every truthy params.data,
the body is set to the JSON serialization of params.data — in particular for
the method string "GET". -/
theorem body_method_case_sensitive (method : String)
    (d : List (String × JSValue)) (h : method ≠ "get") :
    fetchRequestBody method (some d) = some (jsonStringify d) := by
  simp [fetchRequestBody, h]

/-- C10 witness: the uppercase method "GET" with data (a -> "1") gets a JSON
body. -/
theorem body_method_case_sensitive_witness :
    fetchRequestBody "GET" (some [("a", JSValue.str "1")])
      = some (jsonStringify [("a", JSValue.str "1")]) :=
  body_method_case_sensitive "GET" [("a", JSValue.str "1")] (by decide)

end FetchUtils
